import Mathlib

/-!
Shallow embedding of the Lager_Produktivitaet parsing-and-aggregation
pipeline (src/data_loader.py, src/aggregation.py).

Conventions of the embedding:
* Spreadsheet cells are `Option CellVal`; `none` models a NaN/empty cell.
* Numeric cell contents are rationals (`ℚ`); `pd.to_numeric(errors="coerce")`
  of a non-numeric cell is modelled as `none` (NaN), filled with 0 as in the
  source.  Cells holding numbers parsed by the Excel reader are `CellVal.num`;
  date cells are `CellVal.date` carrying a day number (day granularity, so
  `dt.normalize()` is the identity).
* Calendar dates are integers counting days from an epoch that falls on a
  Monday, so Python's `Timestamp.weekday()` is `pyMod d 7`.
* Strings keep Python semantics for `strip`, `lower`, `title` on the
  alphabet actually used (ASCII plus the German letters ä ö ü ß).
-/

namespace Lager

/-! ## String helpers (Python str.strip / str.lower / str.title) -/

/-- Lower-case a character: ASCII plus the German capital umlauts. -/
def chLower (c : Char) : Char :=
  if c = 'Ä' then 'ä' else if c = 'Ö' then 'ö' else if c = 'Ü' then 'ü'
  else c.toLower

/-- Upper-case a character: ASCII plus the German small umlauts. -/
def chUpper (c : Char) : Char :=
  if c = 'ä' then 'Ä' else if c = 'ö' then 'Ö' else if c = 'ü' then 'Ü'
  else c.toUpper

/-- A cased (alphabetic) character, for Python's `str.title` word detection. -/
def isCasedCh (c : Char) : Bool :=
  c.isAlpha || c ∈ ['ä', 'ö', 'ü', 'Ä', 'Ö', 'Ü', 'ß']

/-- Python `str.lower()`. -/
def strLower (s : String) : String := String.mk (s.data.map chLower)

/-- Whitespace for Python `str.strip()` (the whitespace characters that
occur in the data). -/
def isSpaceCh (c : Char) : Bool :=
  c = ' ' || c = '\t' || c = '\n' || c = '\r'

/-- Python `str.strip()`: drop whitespace from both ends. -/
def strTrim (s : String) : String :=
  String.mk (((s.data.dropWhile isSpaceCh).reverse.dropWhile isSpaceCh).reverse)

/-- Worker for `strTitle`: the boolean records whether the previous
character was cased. -/
def titleGo : Bool → List Char → List Char
  | _, [] => []
  | prevCased, c :: cs =>
      (if isCasedCh c then (if prevCased then chLower c else chUpper c) else c)
        :: titleGo (isCasedCh c) cs

/-- Python `str.title()`: upper-case the first character of every maximal
run of cased characters, lower-case the rest. -/
def strTitle (s : String) : String := String.mk (titleGo false s.data)

/-- `lp s` is `s.str.lower().str.strip()`, the normalisation the aggregators
apply before comparing metric names (aggregation.py lines 75, 94, 179, 195). -/
def lp (s : String) : String := strTrim (strLower s)

/-- Bool test: does `pat` occur as a contiguous substring of `l`?
(Python `str.contains` with a plain pattern.) -/
def listHasInfix [DecidableEq α] (pat : List α) : List α → Bool
  | [] => pat.isPrefixOf []
  | c :: cs => pat.isPrefixOf (c :: cs) || listHasInfix pat cs

/-- Case-insensitive substring test, as in
`df["Metric"].str.contains(pat, case=False)` for a lower-case `pat`. -/
def containsCI (s pat : String) : Bool :=
  listHasInfix pat.data (strLower s).data

/-! ## Cells -/

/-- A non-empty spreadsheet cell: a string, an already-parsed number, or an
already-parsed date (a day number). -/
inductive CellVal where
  | str (s : String)
  | num (q : ℚ)
  | date (d : ℤ)
deriving DecidableEq, Repr

/-- A spreadsheet cell; `none` is NaN/empty. -/
abbrev Cell := Option CellVal

/-- Python `str(cell)`.  `str` of NaN is `"nan"`; the renderings of numbers
and dates only need to be non-blank for the pipeline's checks. -/
def cellStr : Cell → String
  | none => "nan"
  | some (.str s) => s
  | some (.num q) => "num:" ++ toString q
  | some (.date d) => "date:" ++ toString d

/-- The blank test used by the block scanner and the date-skip rule:
`pd.isna(c) or str(c).strip() == ""`. -/
def cellBlank (c : Cell) : Bool :=
  match c with
  | none => true
  | some v => strTrim (cellStr v) == ""

/-- `pd.to_numeric(errors="coerce").fillna(0)` on a cell.  String cells
coerce to NaN → 0 in this model (numeric-looking strings are represented as
`CellVal.num` by the Excel reader). -/
def cellNum : Cell → ℚ
  | some (.num q) => q
  | _ => 0

/-- `pd.to_datetime(errors="coerce")` on a cell: `none` is NaT. -/
def cellDate : Cell → Option ℤ
  | some (.date d) => some d
  | _ => none

/-! ## Long-format records and the wide pivot (data_loader.py) -/

/-- A raw record appended by the extraction loop
(data_loader.py lines 102–110): the metric name is already
`kpi_name.strip().lower()`; the other fields are raw cells. -/
structure RawRec where
  datum : Cell
  team : Cell
  schicht : Cell
  metric : String
  value : Cell
deriving DecidableEq, Repr

/-- A row of `df_long` after numeric/date coercion and metric
normalisation (data_loader.py lines 118–128). -/
structure LongRec where
  datum : Option ℤ
  team : Cell
  schicht : Cell
  metric : String
  value : ℚ
deriving DecidableEq, Repr

/-- data_loader.py lines 118–128: build one `df_long` row. -/
def mkLong (r : RawRec) : LongRec :=
  { datum := cellDate r.datum
    team := r.team
    schicht := r.schicht
    metric := strLower (strTrim r.metric)
    value := cellNum r.value }

/-- A pivot key `(Datum, Team, Schicht)`; rows with a NaN key component are
dropped by `pivot_table`. -/
abbrev PKey := ℤ × CellVal × CellVal

/-- The key of a long record, if all three components are non-null. -/
def keyOf (r : LongRec) : Option PKey :=
  match r.datum, r.team, r.schicht with
  | some d, some t, some s => some (d, t, s)
  | _, _, _ => none

/-- The index of `df_wide`: the distinct valid keys. -/
def pivotKeys (rs : List LongRec) : List PKey :=
  (rs.filterMap keyOf).dedup

/-- One cell of `df_wide` (data_loader.py lines 131–139):
`pivot_table(..., aggfunc="first")` keeps the first value of the group;
`none` models a missing (NaN) cell. -/
def pivotCell (rs : List LongRec) (k : PKey) (m : String) : Option ℚ :=
  ((rs.filter (fun r => keyOf r = some k ∧ r.metric = m)).head?).map (·.value)

/-- `safe_get` (data_loader.py line 7) evaluated at one row: a missing
column and a NaN cell both yield 0. -/
def safe_get_cell (rs : List LongRec) (k : PKey) (m : String) : ℚ :=
  (pivotCell rs k m).getD 0

/-! ## Shift summary builder (data_loader.py lines 141–169) -/

/-- The fixed bucket table of data_loader.py lines 144–160:
each summary column is the sum of 1–2 source metrics via `safe_get`. -/
def bucketTable : List (String × List String) :=
  [ ("sägen", ["auftragsrollen gesägt", "abfallrollen gesägt"]),
    ("rauslegen", ["rausgelegte rollen", "säge raus"]),
    ("richten", ["gerichtete rollen", "säge gerichtet"]),
    ("zusammenfahren", ["zusammengefahrene rollen"]),
    ("verladen", ["verladene rollen"]),
    ("cutten", ["cut rollen"]),
    ("absetzen", ["eingelagerte rollen produktion"]),
    ("absetzen 2", ["rollen umgelagert absetzer", "säge eingelagert"]),
    ("kontrolle dmg/retouren", ["damaged bearbeitet", "retouren bearbeitet"]),
    ("packen paletten liegend", ["rollen auf palette liegend (rollenanzahl)"]),
    ("packen paletten stehend", ["rollen auf palette stehend (rollenanzahl)"]),
    ("souscouche abladen", ["souscouche abgeladen (rollen)"]),
    ("serbien abladen", ["entladen serbien"]),
    ("serbien abladen tautliner", ["entladen serbien tautliner"]),
    ("serbien einlagern", ["serbien rollen eingelagert"]),
    ("sonstiges / aufräumarbeiten (in std)", ["dafür gebraucht (stunden)"]),
    ("vorhandene ma", ["anzahl ma"]) ]

/-- The summary column names, in declaration order (the columns of
`summary_df` when the staffing loop at line 164 runs). -/
def bucketNames : List String := bucketTable.map Prod.fst

/-- Value of one summary bucket at one `(date, team, shift)` row. -/
def bucketVal (rs : List LongRec) (k : PKey) (b : String) : ℚ :=
  (((bucketTable.find? (fun p => p.1 = b)).getD (b, [])).2.map
      (safe_get_cell rs k)).sum

/-- The `Angaben` side table, post-normalisation: one `(Task, minutes)` pair
per row, minutes taken from the identified Minuten column. -/
abbrev AngabenRow := String × ℚ

/-- Keys of `angaben_dict` (data_loader.py lines 45–48): `dict(zip(..))`
keeps one entry per distinct task name. -/
def dictKeys (ang : List AngabenRow) : List String := (ang.map Prod.fst).dedup

/-- Value of `angaben_dict[k]`: `dict(zip(..))` keeps the LAST binding of a
duplicated key. -/
def dictVal (ang : List AngabenRow) (k : String) : ℚ :=
  ((ang.reverse.find? (fun p => p.1 = k)).map Prod.snd).getD 0

/-- Round half to even (numpy/pandas `.round`) to an integer. -/
def roundHalfEven (q : ℚ) : ℤ :=
  let f := ⌊q⌋
  let r := q - f
  if r < 1/2 then f else if 1/2 < r then f + 1
  else if f % 2 = 0 then f else f + 1

/-- pandas `.round(1)`: round half to even at one decimal. -/
def round1 (q : ℚ) : ℚ := (roundHalfEven (q * 10) : ℚ) / 10

/-- data_loader.py lines 163–166: `workload_minutes` accumulated by looping
over the keys of `angaben_dict` and adding `summary_df[kpi] * minutes`
whenever the key is a summary column. -/
def workload_minutes (rs : List LongRec) (ang : List AngabenRow) (k : PKey) : ℚ :=
  ((dictKeys ang).map (fun kpi =>
      if kpi ∈ bucketNames then bucketVal rs k kpi * dictVal ang kpi else 0)).sum

/-- data_loader.py lines 167–168: `benötigte ma`. -/
def benoetigte_ma (rs : List LongRec) (ang : List AngabenRow) (k : PKey) : ℚ :=
  round1 ((workload_minutes rs ang k / 60
      + bucketVal rs k "sonstiges / aufräumarbeiten (in std)") / 7.5)

/-- data_loader.py line 169: `differenz ma`. -/
def differenz_ma (rs : List LongRec) (ang : List AngabenRow) (k : PKey) : ℚ :=
  round1 (bucketVal rs k "vorhandene ma" - benoetigte_ma rs ang k)

/-- The weighted-minutes total as the SPEC words it (spec §4.5 step 2,
claim C1): a sum over the task buckets that have an entry in the
coefficient table. -/
def specWeightedMinutes (rs : List LongRec) (ang : List AngabenRow) (k : PKey) : ℚ :=
  (bucketNames.map (fun b =>
      if b ∈ dictKeys ang then bucketVal rs k b * dictVal ang b else 0)).sum

/-! ## The tidy long table (`summary_long`) -/

/-- A shift of the ordered categorical `SHIFT_ORDER = ["Früh","Spät","Nacht"]`
(data_loader.py line 5). -/
inductive Shift where
  | frueh
  | spaet
  | nacht
deriving DecidableEq, Repr

/-- The fixed shift order used by every per-shift pivot. -/
def shiftCols : List Shift := [.frueh, .spaet, .nacht]

/-- data_loader.py lines 179–184: `Schicht` is `astype(str).str.strip()
.str.title()` and then mapped into the ordered categorical; a label outside
`SHIFT_ORDER` becomes null (`none`). -/
def shiftOfCell (c : Cell) : Option Shift :=
  let t := strTitle (strTrim (cellStr c))
  if t = "Früh" then some .frueh
  else if t = "Spät" then some .spaet
  else if t = "Nacht" then some .nacht
  else none

/-- A row of `summary_long`, the tidy long table consumed by both
aggregators.  `schicht` is the ordered categorical (`none` = null).
`team` is an identifier the aggregators never group by and is omitted. -/
structure SumRec where
  datum : Option ℤ
  schicht : Option Shift
  metric : String
  value : ℚ
deriving DecidableEq, Repr

/-- Sum of the `Value` column of a list of tidy rows. -/
def sumVal (l : List SumRec) : ℚ := (l.map (·.value)).sum

/-! ## Weekly aggregator (aggregation.py lines 22–131) -/

/-- Python's modulo (sign of the divisor), so that `pyMod d 7` is the
weekday of day `d` with Monday = 0. -/
def pyMod (a b : ℤ) : ℤ := ((a % b) + b) % b

/-- aggregation.py line 34: the Monday of the week containing `t`. -/
def weekStart (t : ℤ) : ℤ := t - pyMod t 7

/-- aggregation.py lines 35–37: the Mon–Fri days of the week of `t`. -/
def weekdaysOf (t : ℤ) : List ℤ :=
  (((List.range 7).map (fun (i : ℕ) => weekStart t + (i : ℤ))).filter
    (fun d => pyMod d 7 < 5))

/-- The staffing KPI names excluded from task rollups
(aggregation.py line 6). -/
def MA_KPIS : List String := ["vorhandene ma", "benötigte ma", "differenz ma"]

/-- The loader's hours-only metric (aggregation.py line 7). -/
def SONSTIGES : String := "sonstiges / aufräumarbeiten (in std)"

/-- The weekly task groups, in the fixed column order `TASK_ORDER`
(aggregation.py line 11). -/
inductive TaskGroup where
  | absetzen
  | richten
  | verladen
  | zusammenfahren
  | sonstige
deriving DecidableEq, Repr

/-- `TASK_ORDER` (aggregation.py line 11). -/
def TASK_ORDER : List TaskGroup :=
  [.absetzen, .richten, .verladen, .zusammenfahren, .sonstige]

/-- `classify_task` (aggregation.py lines 57–70).  In the tidy table the
metric is always a string, so the non-string branch does not arise. -/
def classify_task (metric : String) : TaskGroup :=
  let m := strLower (strTrim metric)
  if m.startsWith "absetzen" then .absetzen
  else if m.startsWith "richten" then .richten
  else if m.startsWith "verladen" then .verladen
  else if m.startsWith "zusammenfahren" then .zusammenfahren
  else .sonstige

/-- aggregation.py lines 40–44: parse dates, restrict to the Mon–Sun range
and then to its weekdays.  Rows with unparseable dates (NaT) fail both
comparisons and are dropped. -/
def weeklyFiltered (rs : List SumRec) (t : ℤ) : List SumRec :=
  (rs.filter (fun r =>
      match r.datum with
      | some d => weekStart t ≤ d ∧ d ≤ weekStart t + 6 ∧ d ∈ weekdaysOf t
      | none => False))

/-- aggregation.py lines 73–76: the "rolls" subset — everything except the
MA KPIs and the loader's hours-only Sonstiges metric. -/
def weeklyRolls (rs : List SumRec) (t : ℤ) : List SumRec :=
  ((weeklyFiltered rs t).filter (fun r =>
      r.metric ∉ MA_KPIS ∧ lp r.metric ≠ SONSTIGES))

/-- One cell of a day×shift pivot: `groupby(["Datum","Schicht"]).sum`
(null-shift rows are dropped by the groupby), densely reindexed. -/
def shiftCell (rows : List SumRec) (d : ℤ) (s : Shift) : ℚ :=
  sumVal (rows.filter (fun r => r.datum = some d ∧ r.schicht = some s))

/-- One cell of the day×task-group pivot (aggregation.py lines 80–84). -/
def groupCell (rows : List SumRec) (d : ℤ) (g : TaskGroup) : ℚ :=
  sumVal (rows.filter (fun r => r.datum = some d ∧ classify_task r.metric = g))

/-- One cell of a per-day series: `groupby("Datum").sum`. -/
def dayCell (rows : List SumRec) (d : ℤ) : ℚ :=
  sumVal (rows.filter (fun r => r.datum = some d))

/-- `_reindex_shift` / the dense day×shift table shape: one row per weekday
of the target week, one cell per shift of `SHIFT_ORDER`, zero-filled. -/
def mkShiftTable (rows : List SumRec) (weekdays : List ℤ) :
    List (ℤ × List ℚ) :=
  weekdays.map (fun d => (d, shiftCols.map (shiftCell rows d)))

/-- The dense day×task-group table (aggregation.py lines 80–84). -/
def mkGroupTable (rows : List SumRec) (weekdays : List ℤ) :
    List (ℤ × List ℚ) :=
  weekdays.map (fun d => (d, TASK_ORDER.map (groupCell rows d)))

/-- A dense per-day series, reindexed over the weekdays and zero-filled. -/
def mkDayTable (rows : List SumRec) (weekdays : List ℤ) : List (ℤ × ℚ) :=
  weekdays.map (fun d => (d, dayCell rows d))

/-- The rows used for the staffing tables: metric `"vorhandene ma"` only
(aggregation.py lines 93–114). -/
def vorhandeneRows (rs : List SumRec) (t : ℤ) : List SumRec :=
  ((weeklyFiltered rs t).filter (fun r => lp r.metric = "vorhandene ma"))

/-- The sägen rows: metrics containing "sägen" case-insensitively
(aggregation.py line 50). -/
def saegenRows (rs : List SumRec) (t : ℤ) : List SumRec :=
  ((weeklyFiltered rs t).filter (fun r => containsCI r.metric "sägen"))

/-- The result dictionary of `aggregate_weekly` (the ISO week number `kw`
is a presentation detail and is not modelled). -/
structure WeeklyResult where
  dates : List ℤ
  saegen_by_day_shift : List (ℤ × List ℚ)
  total_rolls_by_group : List (ℤ × List ℚ)
  total_shift : List (ℤ × List ℚ)
  workers_per_shift : List (ℤ × List ℚ)
  workers_per_day : List (ℤ × ℚ)
  total_rolls_per_day : List (ℤ × ℚ)
  ma_by_shift : List (ℤ × List ℚ)
deriving DecidableEq, Repr

/-- `aggregate_weekly` (aggregation.py lines 22–131); `none` models the
empty dict returned when no rows fall in the Mon–Fri window. -/
def aggregate_weekly (rs : List SumRec) (t : ℤ) : Option WeeklyResult :=
  let weekdays := weekdaysOf t
  let df := weeklyFiltered rs t
  if df = [] then none
  else
    let rolls := weeklyRolls rs t
    let ma := vorhandeneRows rs t
    some
      { dates := weekdays
        saegen_by_day_shift := mkShiftTable (saegenRows rs t) weekdays
        total_rolls_by_group := mkGroupTable rolls weekdays
        total_shift := mkShiftTable rolls weekdays
        workers_per_shift := mkShiftTable ma weekdays
        workers_per_day := mkDayTable ma weekdays
        total_rolls_per_day := mkDayTable rolls weekdays
        ma_by_shift := mkShiftTable ma weekdays }

/-! ## Daily aggregator (aggregation.py lines 135–240) -/

/-- An `Angaben` row as the daily merge sees it: normalised task name and
the Minuten cell (which may be NaN, hence `Option`). -/
abbrev AngRow := String × Option ℚ

/-- aggregation.py lines 147–152: restrict to the target day (dates are at
day granularity in this model, so `dt.normalize()` is the identity). -/
def dailyDf (rs : List SumRec) (t : ℤ) : List SumRec :=
  rs.filter (fun r => r.datum = some t)

/-- The metric values observed on the target day. -/
def dailyMetrics (rs : List SumRec) (t : ℤ) : List String :=
  ((dailyDf rs t).map (·.metric)).dedup

/-- A row of `shift_task_rolls` (aggregation.py line 157). -/
structure RollsRow where
  schicht : Shift
  metric : String
  value : ℚ
deriving DecidableEq, Repr

/-- aggregation.py line 157: `groupby(["Schicht","Metric"], observed=False)
.sum()`.  With the categorical `Schicht` and `observed=False` every
(category, observed metric) pair appears; rows whose shift is null are
dropped from every group. -/
def shift_task_rolls (rs : List SumRec) (t : ℤ) : List RollsRow :=
  shiftCols.flatMap (fun s =>
    (dailyMetrics rs t).map (fun m =>
      { schicht := s, metric := m,
        value := sumVal ((dailyDf rs t).filter
          (fun r => r.schicht = some s ∧ r.metric = m)) }))

/-- A row of `shift_task_merged` after the Hours/FTE computation, the
Sonstiges special case and the Pretty labelling
(aggregation.py lines 160–191). -/
structure MergedRow where
  schicht : Shift
  metric : String
  value : ℚ
  minutes : Option ℚ
  hours : Option ℚ
  fte : Option ℚ
  pretty : String
deriving DecidableEq, Repr

/-- Build one merged row from a `shift_task_rolls` row and the matched
Minuten cell (`none` = unmatched task or NaN cell, i.e. NaN after the left
join).  `FTE` is computed before the Sonstiges override of `Hours`, as in
the source (lines 170–181). -/
def mergeRow (s : Shift) (m : String) (v : ℚ) (mn : Option ℚ) : MergedRow :=
  let hours0 : Option ℚ := mn.map (fun c => v * c / 60)
  let sonst := lp m = SONSTIGES
  { schicht := s, metric := m,
    value := if sonst then 0 else v,
    minutes := mn,
    hours := if sonst then some v else hours0,
    fte := hours0.map (fun h => h / 7.5),
    pretty := if sonst then "Sonstiges" else strTitle m }

/-- aggregation.py lines 160–191: the left join against `angaben` on
`Metric = Task`; an unmatched task keeps its row (with NaN minutes), a task
matching several `Angaben` rows is duplicated, as `pd.merge(..., how="left")`
does. -/
def shift_task_merged (rs : List SumRec) (ang : List AngRow) (t : ℤ) :
    List MergedRow :=
  (shift_task_rolls rs t).flatMap (fun r =>
    let hits := ang.filter (fun a => a.1 = r.metric)
    if hits = [] then [mergeRow r.schicht r.metric r.value none]
    else hits.map (fun a => mergeRow r.schicht r.metric r.value a.2))

/-- aggregation.py lines 194–196: drop the MA KPIs from the task rows. -/
def dailyTasks (rs : List SumRec) (ang : List AngRow) (t : ℤ) :
    List MergedRow :=
  (shift_task_merged rs ang t).filter (fun r => lp r.metric ∉ MA_KPIS)

/-- Total unit count of a Pretty label (pandas sum, NaN skipped). -/
def vsumOf (l : List MergedRow) (p : String) : ℚ :=
  ((l.filter (fun r => r.pretty = p)).map (·.value)).sum

/-- Total Hours of a Pretty label (pandas sum: NaN entries are skipped,
an all-NaN group sums to 0). -/
def hsumOf (l : List MergedRow) (p : String) : ℚ :=
  ((l.filter (fun r => r.pretty = p)).map (fun r => r.hours.getD 0)).sum

/-- aggregation.py lines 199–203: the retained task labels — those whose
unit-count total or Hours total is nonzero.  The descending-by-unit-count
display order (`sort_values`, an unstable sort) is presentational and not
modelled; this list fixes the row SET of both pivots. -/
def keptPretties (l : List MergedRow) : List String :=
  ((l.map (·.pretty)).dedup).filter (fun p => vsumOf l p ≠ 0 ∨ hsumOf l p ≠ 0)

/-- aggregation.py line 205: restrict the task rows to the retained labels. -/
def tasksKept (l : List MergedRow) : List MergedRow :=
  l.filter (fun r => r.pretty ∈ keptPretties l)

/-- One cell of the Hours pivot (aggregation.py lines 208–220): NaN Hours
are skipped by the sum and missing cells are zero-filled. -/
def hoursCell (l : List MergedRow) (p : String) (s : Shift) : ℚ :=
  ((l.filter (fun r => r.pretty = p ∧ r.schicht = s)).map
      (fun r => r.hours.getD 0)).sum

/-- One cell of the unit-count pivot (aggregation.py lines 222–234). -/
def rollsCell (l : List MergedRow) (p : String) (s : Shift) : ℚ :=
  ((l.filter (fun r => r.pretty = p ∧ r.schicht = s)).map (·.value)).sum

/-- The result dictionary of `aggregate_daily`. -/
structure DailyResult where
  merged : List MergedRow
  taskRows : List String
  hours_pivot : List (String × List ℚ)
  rolls_pivot : List (String × List ℚ)
deriving DecidableEq, Repr

/-- `aggregate_daily` (aggregation.py lines 135–240); `none` models the
empty dict returned when the day has no rows. -/
def aggregate_daily (rs : List SumRec) (ang : List AngRow) (t : ℤ) :
    Option DailyResult :=
  if dailyDf rs t = [] then none
  else
    let tasks := dailyTasks rs ang t
    let kept := keptPretties tasks
    let tk := tasksKept tasks
    some
      { merged := shift_task_merged rs ang t
        taskRows := kept
        hours_pivot := kept.map (fun p => (p, shiftCols.map (hoursCell tk p)))
        rolls_pivot := kept.map (fun p => (p, shiftCols.map (rollsCell tk p))) }

/-! ## Workbook loading: block scanner and record extractor
(data_loader.py lines 50–115, 188–190) -/

/-- One sheet row; pandas pads short rows with NaN up to the frame width,
so cell access inside a row never raises. -/
abbrev Row := List Cell

/-- The raw cell grid of one sheet (`header=None`). -/
abbrev Grid := List Row

/-- A named sheet of the workbook. -/
structure Sheet where
  name : String
  grid : Grid
deriving Repr

/-- Cell `c` of a row; a short row reads as NaN (pandas padding). -/
def rowCell (row : Row) (c : ℕ) : Cell := (row.get? c).getD none

/-- The frame width of a sheet. -/
def gridWidth (g : Grid) : ℕ := (g.map List.length).foldr max 0

/-- `raw.empty or raw.isna().all().all()` — nothing usable on the sheet. -/
def gridVoid (g : Grid) : Bool := g.all (fun row => row.all (fun c => c.isNone))

/-- The block-boundary test of the scan loop (data_loader.py lines 73, 80):
first cell NaN or blank after strip. -/
def rowBlank (row : Row) : Bool := cellBlank (rowCell row 0)

/-- The sentinel state machine of the block scanner: the accumulator holds
the reversed rows of the block being read (`in-block`), or `none`
(`seeking-start`).  Maximal runs of rows with a non-blank first cell become
blocks (data_loader.py lines 71–84, 111). -/
def scanGo : Option (List Row) → List Row → List (List Row)
  | acc, [] => match acc with | some b => [b.reverse] | none => []
  | acc, r :: rs =>
      if rowBlank r then
        match acc with
        | some b => b.reverse :: scanGo none rs
        | none => scanGo none rs
      else scanGo (some (r :: acc.getD [])) rs

/-- All team blocks of a sheet (the scan starts at row 1; row 0 is the date
header). -/
def scanBlocks (g : Grid) : List (List Row) := scanGo none (g.drop 1)

/-- The record loop over one block (data_loader.py lines 91–110): one
record per metric row × column, skipping blank metric names and blank
dates.  `dates`, `teams` and `schichten` are aligned lists over columns
`1..W-1`. -/
def blockRecords (dates : List Cell) (W : ℕ) (row0 row1 : Row)
    (kpiRows : List Row) : List RawRec :=
  kpiRows.flatMap (fun row =>
    let name := strTrim (cellStr (rowCell row 0))
    if name = "" then []
    else
      (List.range (W - 1)).filterMap (fun j =>
        let datum := rowCell dates j
        if cellBlank datum then none
        else some
          { datum := datum
            team := rowCell row0 (j + 1)
            schicht := rowCell row1 (j + 1)
            metric := strLower name
            value := rowCell row (j + 1) }))

/-- Parse one team block (data_loader.py lines 84–110).  A block with
fewer than two rows makes `block.iloc[1, 1:]` raise `IndexError`, modelled
as `Except.error`; an empty block is skipped (line 85, unreachable). -/
def parseBlock (dates : List Cell) (W : ℕ) :
    List Row → Except Unit (List RawRec)
  | [] => .ok []
  | [_] => .error ()
  | r0 :: r1 :: rest => .ok (blockRecords dates W r0 r1 rest)

/-- Parse one month sheet: extract the date header and run the block loop.
A block-level `IndexError` escapes (no per-block handler in the source). -/
def parseSheet (g : Grid) : Except Unit (List RawRec) := do
  let W := gridWidth g
  let header := (g.head?).getD []
  let dates := (List.range (W - 1)).map (fun j => rowCell header (j + 1))
  (scanBlocks g).foldlM (fun acc blk => do
    let recs ← parseBlock dates W blk
    pure (acc ++ recs)) []

/-- The supported month sheets (data_loader.py line 52). -/
def months : List String := ["Juli", "August", "September", "Oktober"]

/-- `month not in xls.sheet_names` / `pd.read_excel(xls, sheet_name=month)`:
an exact, case-sensitive name lookup. -/
def findSheet (wb : List Sheet) (m : String) : Option Grid :=
  (wb.find? (fun s => s.name = m)).map (·.grid)

/-- The month loop of `load_excel` (data_loader.py lines 55–111): missing
and void sheets are skipped locally; any exception escaping the loop body
aborts the whole load. -/
def loadRecords (wb : List Sheet) : Except Unit (List RawRec) :=
  months.foldlM (fun acc m =>
    match findSheet wb m with
    | none => .ok acc
    | some g =>
        if gridVoid g then .ok acc
        else do
          let recs ← parseSheet g
          pure (acc ++ recs)) []

/-- The record set `load_excel` ends up with: the global `except` handler
(data_loader.py lines 188–190) turns any escaped exception into empty
output, and zero records also yield empty output (line 113). -/
def loadedRecords (wb : List Sheet) : List RawRec :=
  match loadRecords wb with
  | .ok rs => rs
  | .error _ => []

/-- Did the load loop raise (so that the global handler fired)? -/
def loadFailed (wb : List Sheet) : Bool :=
  match loadRecords wb with
  | .ok _ => false
  | .error _ => true

/-! ## Minuten column identification (data_loader.py lines 27–34) -/

/-- The name heuristic: the lower-cased column name contains one of
"min", "minute", "vorgabe". -/
def isMinutesName (c : String) : Bool :=
  ["min", "minute", "vorgabe"].any (fun x => listHasInfix x.data (strLower c).data)

/-- data_loader.py lines 27–34: first matching column in declared order,
else the second column when there are at least two. -/
def identify_minutes_col (cols : List String) : Option String :=
  match cols.find? isMinutesName with
  | some c => some c
  | none => if cols.length > 1 then cols.get? 1 else none

/-! ## Table accessors used by the statements -/

/-- The row of a day-indexed table at date `d` (first matching row). -/
def rowAt (tbl : List (ℤ × List ℚ)) (d : ℤ) : List ℚ :=
  ((tbl.find? (fun p => p.1 = d)).map Prod.snd).getD []

/-- The value of a day-indexed series at date `d`. -/
def valAt (tbl : List (ℤ × ℚ)) (d : ℤ) : ℚ :=
  ((tbl.find? (fun p => p.1 = d)).map Prod.snd).getD 0

/-- The total of the row(s) of a day-indexed table at date `d`. -/
def rowTotal (tbl : List (ℤ × List ℚ)) (d : ℤ) : ℚ :=
  ((tbl.filter (fun p => p.1 = d)).map (fun p => p.2.sum)).sum

/-! ## Concrete inputs for witnesses and counterexamples -/

/-- Two records sharing (date, team, shift, metric) with different values. -/
def dupRecs : List LongRec :=
  [⟨some 0, some (.str "T"), some (.str "Früh"), "m", 1⟩,
   ⟨some 0, some (.str "T"), some (.str "Früh"), "m", 2⟩]

/-- Their common pivot key. -/
def dupKey : PKey := (0, .str "T", .str "Früh")

/-- A tidy long table for the C1 witness. -/
def rsC1W : List LongRec :=
  [⟨some 0, some (.str "T"), some (.str "Früh"), "anzahl ma", 4⟩,
   ⟨some 0, some (.str "T"), some (.str "Früh"), "verladene rollen", 100⟩,
   ⟨some 0, some (.str "T"), some (.str "Früh"), "dafür gebraucht (stunden)", 2⟩]

/-- A coefficient table with one bucket entry and one unknown task. -/
def angC1W : List AngabenRow := [("verladen", 3), ("unknown", 7)]

/-- The single pivot key of `rsC1W`. -/
def keyC1W : PKey := (0, .str "T", .str "Früh")

/-- One weekday record whose shift is null in the categorical. -/
def rsNullShift : List SumRec := [⟨some 0, none, "x", 5⟩]

/-- A small weekly table with valid shifts only. -/
def rsWeekW : List SumRec :=
  [⟨some 0, some .frueh, "verladen x", 5⟩,
   ⟨some 1, some .nacht, "y", 2⟩,
   ⟨some 0, some .spaet, "vorhandene ma", 3⟩]

/-- Daily table: the hours-only Sonstiges metric is present with value 0,
a second task has nonzero units. -/
def rsDayW : List SumRec :=
  [⟨some 0, some .frueh, "sonstiges / aufräumarbeiten (in std)", 0⟩,
   ⟨some 0, some .frueh, "alpha", 5⟩]

/-- Coefficient rows for the daily examples: "alpha" is matched,
nothing else is. -/
def angDayW : List AngRow := [("alpha", some 6)]

/-- Daily table with one matched and one unmatched task. -/
def rsDayC6 : List SumRec :=
  [⟨some 0, some .frueh, "alpha", 5⟩,
   ⟨some 0, some .spaet, "beta", 4⟩]

/-- A well-formed team block: team row, shift row, one metric row. -/
def goodBlock : List Row :=
  [[some (.str "TeamRow"), some (.str "A")],
   [some (.str "SchichtRow"), some (.str "Früh")],
   [some (.str "KPI"), some (.num 3)]]

/-- A sheet grid with a date header and one well-formed block. -/
def gridGood : Grid := [[none, some (.date 0)]] ++ goodBlock

/-- The same sheet with an additional single-row (malformed) block after a
blank separator row. -/
def gridBad : Grid :=
  [[none, some (.date 0)]] ++ goodBlock
    ++ [[none, none]] ++ [[some (.str "lonely"), some (.num 1)]]

/-- The record the well-formed block yields. -/
def recGood : RawRec :=
  { datum := some (.date 0), team := some (.str "A"),
    schicht := some (.str "Früh"), metric := "kpi", value := some (.num 3) }

/-- The weekly result of `rsWeekW` at target Monday 0. -/
def resWeekW : WeeklyResult :=
  (aggregate_weekly rsWeekW 0).getD ⟨[], [], [], [], [], [], [], []⟩

/-- The daily result of the Sonstiges example at day 0. -/
def resDayW : DailyResult :=
  (aggregate_daily rsDayW angDayW 0).getD ⟨[], [], [], []⟩

/-- The daily result of the matched/unmatched example at day 0. -/
def resDayC6 : DailyResult :=
  (aggregate_daily rsDayC6 angDayW 0).getD ⟨[], [], [], []⟩

/-! ## General lemmas -/

lemma sum_map_add {β : Type} (bs : List β) (A B : β → ℚ) :
    (bs.map (fun b => A b + B b)).sum = (bs.map A).sum + (bs.map B).sum := by
  induction bs with
  | nil => simp
  | cons b bs ih => simp [ih]; ring

lemma sum_ite_single {β : Type} [DecidableEq β] (v : ℚ) (b0 : β) :
    ∀ bs : List β, bs.Nodup → b0 ∈ bs →
      (bs.map (fun b => if b0 = b then v else 0)).sum = v := by
  intro bs
  induction bs with
  | nil => intro _ h; cases h
  | cons b bs ih =>
      intro hnd hmem
      rcases List.mem_cons.mp hmem with hb | hb
      · subst hb
        have hz : (bs.map (fun b => if b0 = b then v else 0)).sum = 0 := by
          apply List.sum_eq_zero
          intro x hx
          rcases List.mem_map.mp hx with ⟨y, hy, hxy⟩
          have : b0 ≠ y := fun he => ((List.nodup_cons.mp hnd).1 (he ▸ hy))
          simpa [this] using hxy.symm
        simp [hz]
      · have hne : b0 ≠ b := by
          rintro rfl
          exact (List.nodup_cons.mp hnd).1 hb
        simp [hne, ih (List.nodup_cons.mp hnd).2 hb]

/-- Summing a list blockwise over the fibers of a classifier `f`, with the
fiber labels listed without repetition and covering everything, gives the
total sum. -/
lemma fiber_partition {α β : Type} [DecidableEq β] (val : α → ℚ) (f : α → β) :
    ∀ (l : List α) (bs : List β), bs.Nodup → (∀ x ∈ l, f x ∈ bs) →
      (bs.map (fun b => ((l.filter (fun x => f x = b)).map val).sum)).sum
        = (l.map val).sum := by
  intro l
  induction l with
  | nil => intro bs _ _; simp
  | cons x l ih =>
      intro bs hnd hcov
      have hx : f x ∈ bs := hcov x (List.mem_cons_self x l)
      have hrec := ih bs hnd (fun y hy => hcov y (List.mem_cons_of_mem x hy))
      have hsplit :
          (bs.map (fun b => (((x :: l).filter (fun y => f y = b)).map val).sum)).sum
            = (bs.map (fun b => (if f x = b then val x else 0)
                + ((l.filter (fun y => f y = b)).map val).sum)).sum := by
        apply congrArg
        apply List.map_congr_left
        intro b _
        by_cases hb : f x = b
        · simp [List.filter_cons, hb]
        · simp [List.filter_cons, hb]
      rw [hsplit, sum_map_add, sum_ite_single (val x) (f x) bs hnd hx, hrec]
      simp

/-- Dropping elements whose contribution is zero does not change a sum. -/
lemma sum_map_filter_of_zero {α : Type} (val : α → ℚ) (keep : α → Bool) :
    ∀ l : List α, (∀ x ∈ l, keep x = false → val x = 0) →
      ((l.filter keep).map val).sum = (l.map val).sum := by
  intro l
  induction l with
  | nil => intro _; simp
  | cons x l ih =>
      intro h
      have hrec := ih (fun y hy => h y (List.mem_cons_of_mem x hy))
      by_cases hx : keep x = true
      · simp [List.filter_cons, hx, hrec]
      · have hx' : keep x = false := by simpa using hx
        simp [List.filter_cons, hx', hrec, h x (List.mem_cons_self x l) hx']

/-! ## C1: the staffing KPIs of the shift summary -/

lemma bucketNames_nodup : bucketNames.Nodup := by decide

lemma workload_eq_spec (rs : List LongRec) (ang : List AngabenRow) (k : PKey) :
    workload_minutes rs ang k = specWeightedMinutes rs ang k := by
  have hK : (dictKeys ang).Nodup := List.nodup_dedup _
  have hB : bucketNames.Nodup := bucketNames_nodup
  unfold workload_minutes specWeightedMinutes
  rw [← List.sum_toFinset _ hK, ← List.sum_toFinset _ hB]
  simp_rw [← List.mem_toFinset]
  rw [Finset.sum_ite_mem, Finset.sum_ite_mem, Finset.inter_comm]

/-- C1: for every shift-summary row, `benötigte ma` is the rounded quotient
of the coefficient-weighted bucket minutes (over exactly the buckets with a
coefficient entry) plus the Sonstiges hours by the 7.5-hour shift length,
and `differenz ma` is the rounded difference of `vorhandene ma` and
`benötigte ma`. -/
theorem C1_staffing_formula (rs : List LongRec) (ang : List AngabenRow)
    (k : PKey) (hk : k ∈ pivotKeys rs) :
    benoetigte_ma rs ang k
      = round1 ((specWeightedMinutes rs ang k / 60
          + bucketVal rs k "sonstiges / aufräumarbeiten (in std)") / 7.5)
    ∧ differenz_ma rs ang k
      = round1 (bucketVal rs k "vorhandene ma" - benoetigte_ma rs ang k) := by
  constructor
  · unfold benoetigte_ma
    rw [workload_eq_spec]
  · rfl

/-- Witness for C1 at a concrete summary row. -/
theorem C1_staffing_formula_witness :
    keyC1W ∈ pivotKeys rsC1W
    ∧ (benoetigte_ma rsC1W angC1W keyC1W
        = round1 ((specWeightedMinutes rsC1W angC1W keyC1W / 60
            + bucketVal rsC1W keyC1W "sonstiges / aufräumarbeiten (in std)") / 7.5)
      ∧ differenz_ma rsC1W angC1W keyC1W
        = round1 (bucketVal rsC1W keyC1W "vorhandene ma"
            - benoetigte_ma rsC1W angC1W keyC1W)) :=
  ⟨by decide, C1_staffing_formula rsC1W angC1W keyC1W (by decide)⟩

/-! ## C2: duplicate handling of the wide pivot -/

/-- C2 counterexample: with two records sharing (date, team, shift, metric)
and values 1 and 2, the pivoted cell is 1 (the first value), not the
sum 3. -/
theorem C2_counterexample :
    (1 : ℚ) + 2 = 3
    ∧ pivotCell dupRecs dupKey "m" = some 1
    ∧ ¬ pivotCell dupRecs dupKey "m" = some 3 :=
  ⟨by norm_num, by decide, by decide⟩

/-- C2 as amended: `pivot_table(..., aggfunc="first")` resolves duplicate
(date, team, shift, metric) combinations by keeping the value of the FIRST
matching record, not the sum. -/
theorem C2_pivot_keeps_first (pre post : List LongRec) (r : LongRec)
    (k : PKey) (m : String) (hk : keyOf r = some k) (hm : r.metric = m)
    (hpre : ∀ x ∈ pre, ¬(keyOf x = some k ∧ x.metric = m)) :
    pivotCell (pre ++ r :: post) k m = some r.value := by
  unfold pivotCell
  induction pre with
  | nil => simp [List.filter_cons, hk, hm]
  | cons a pre ih =>
      have ha := hpre a (List.mem_cons_self a pre)
      simp only [List.cons_append, List.filter_cons]
      rw [if_neg (by simpa using ha)]
      exact ih (fun x hx => hpre x (List.mem_cons_of_mem a hx))

/-- Witness for the amended C2 at the concrete duplicate pair. -/
theorem C2_pivot_keeps_first_witness :
    (keyOf ⟨some 0, some (.str "T"), some (.str "Früh"), "m", 1⟩ = some dupKey)
    ∧ pivotCell dupRecs dupKey "m" = some 1 :=
  ⟨by decide,
    C2_pivot_keeps_first [] [⟨some 0, some (.str "T"), some (.str "Früh"), "m", 2⟩]
      ⟨some 0, some (.str "T"), some (.str "Früh"), "m", 1⟩ dupKey "m"
      (by decide) (by decide) (by intro x hx; cases hx)⟩

/-! ## C8: the Minuten column heuristic -/

/-- C8: the Minuten column is the first column, in declared order, whose
lower-cased name contains "min", "minute" or "vorgabe"; with no match and
more than one column, the second column is used. -/
theorem C8_minutes_col_heuristic :
    (∀ (pre post : List String) (c : String),
        (∀ x ∈ pre, isMinutesName x = false) → isMinutesName c = true →
        identify_minutes_col (pre ++ c :: post) = some c)
    ∧ (∀ cols : List String, (∀ x ∈ cols, isMinutesName x = false) →
        1 < cols.length → identify_minutes_col cols = cols.get? 1) := by
  constructor
  · intro pre post c hpre hc
    unfold identify_minutes_col
    have hfind : (pre ++ c :: post).find? isMinutesName = some c := by
      induction pre with
      | nil => simp [List.find?_cons_of_pos, hc]
      | cons a pre ih =>
          simp only [List.cons_append]
          rw [List.find?_cons_of_neg]
          · exact ih (fun x hx => hpre x (List.mem_cons_of_mem a hx))
          · simp [hpre a (List.mem_cons_self a pre)]
    rw [hfind]
  · intro cols hall hlen
    unfold identify_minutes_col
    have hfind : cols.find? isMinutesName = none :=
      List.find?_eq_none.mpr (by intro x hx; simp [hall x hx])
    rw [hfind]
    simp [hlen]

/-- Witness for C8: a matching third column wins; with no match the second
column is the fallback. -/
theorem C8_minutes_col_heuristic_witness :
    (isMinutesName "Minuten" = true)
    ∧ identify_minutes_col ["Task", "Wert", "Minuten"] = some "Minuten"
    ∧ identify_minutes_col ["Task", "Wert"] = (["Task", "Wert"] : List String).get? 1 :=
  ⟨by decide,
    C8_minutes_col_heuristic.1 ["Task", "Wert"] [] "Minuten"
      (by decide) (by decide),
    C8_minutes_col_heuristic.2 ["Task", "Wert"] (by decide) (by decide)⟩

/-! ## C7 / C9: sheet lookup and the month loop -/

lemma find?_skip_middle {α : Type} (p : α → Bool) (s : α) (hs : p s = false) :
    ∀ (A B : List α), (A ++ s :: B).find? p = (A ++ B).find? p := by
  intro A B
  induction A with
  | nil => simp [List.find?_cons_of_neg, hs]
  | cons a A ih =>
      cases hpa : p a with
      | true =>
          simp [List.find?_cons_of_pos, hpa]
      | false =>
          simp only [List.cons_append]
          rw [List.find?_cons_of_neg _ (by simp [hpa]),
            List.find?_cons_of_neg _ (by simp [hpa])]
          exact ih

lemma find?_first_hit {α : Type} (p : α → Bool) (s : α) (hs : p s = true) :
    ∀ (A B : List α), (∀ x ∈ A, p x = false) → (A ++ s :: B).find? p = some s := by
  intro A B hA
  induction A with
  | nil => simp [List.find?_cons_of_pos, hs]
  | cons a A ih =>
      simp only [List.cons_append]
      rw [List.find?_cons_of_neg _ (by simp [hA a (List.mem_cons_self a A)])]
      exact ih (fun x hx => hA x (List.mem_cons_of_mem a hx))

lemma findSheet_skip (A B : List Sheet) (s : Sheet) (m : String)
    (h : s.name ≠ m) : findSheet (A ++ s :: B) m = findSheet (A ++ B) m := by
  unfold findSheet
  rw [find?_skip_middle _ s (by simp [h])]

lemma foldlM_except_ext {σ : Type} (f g : σ → String → Except Unit σ) :
    ∀ (ms : List String), (∀ x ∈ ms, ∀ a, f a x = g a x) →
      ∀ acc : σ, ms.foldlM f acc = ms.foldlM g acc := by
  intro ms
  induction ms with
  | nil => intro _ acc; rfl
  | cons x ms ih =>
      intro h acc
      rw [List.foldlM_cons, List.foldlM_cons, h x (List.mem_cons_self x ms) acc]
      cases g acc x with
      | error e => rfl
      | ok a => exact ih (fun y hy a' => h y (List.mem_cons_of_mem x hy) a') a

lemma loadRecords_skip_sheet (A B : List Sheet) (s : Sheet)
    (hs : s.name ∉ months) :
    loadRecords (A ++ s :: B) = loadRecords (A ++ B) := by
  unfold loadRecords
  apply foldlM_except_ext
  intro m hm acc
  rw [findSheet_skip A B s m (fun he => hs (he ▸ hm))]

/-- C9 counterexample: a workbook whose only sheet is named "JULI" — a case
variant of the supported month name "Juli" — yields no records at all,
although the identical grid under the exact name "Juli" yields a record. -/
theorem C9_counterexample :
    loadedRecords [⟨"JULI", gridGood⟩] = []
    ∧ loadedRecords [⟨"Juli", gridGood⟩] = [recGood] := by decide

/-- C9 as amended: month sheets are matched by their exact, case-sensitive
German month name; a sheet whose name is not exactly one of
Juli/August/September/Oktober (in particular any case variant) is ignored
entirely. -/
theorem C9_month_case_sensitive :
    (∀ (A B : List Sheet) (s : Sheet), s.name ∉ months →
        loadRecords (A ++ s :: B) = loadRecords (A ++ B))
    ∧ ("juli" ∉ months ∧ "JULI" ∉ months ∧ "Juli" ∈ months) :=
  ⟨fun A B s hs => loadRecords_skip_sheet A B s hs, by decide, by decide, by decide⟩

/-- Witness for C9: dropping the "JULI" sheet does not change the load. -/
theorem C9_month_case_sensitive_witness :
    ("JULI" ∉ months)
    ∧ loadRecords ([] ++ ⟨"JULI", gridGood⟩ :: [⟨"Juli", gridGood⟩])
        = loadRecords ([] ++ [⟨"Juli", gridGood⟩]) :=
  ⟨by decide,
    C9_month_case_sensitive.1 [] [⟨"Juli", gridGood⟩] ⟨"JULI", gridGood⟩ (by decide)⟩

/-- C7 counterexample: one sheet containing a well-formed block AND a
malformed single-row block.  The claim expects the malformed block to be
skipped locally and the good block's record returned; the code instead
aborts the whole load (the `IndexError` is only caught by the global
handler), returning no records at all. -/
theorem C7_counterexample :
    loadedRecords [⟨"Juli", gridBad⟩] = []
    ∧ loadedRecords [⟨"Juli", gridGood⟩] = [recGood]
    ∧ loadFailed [⟨"Juli", gridBad⟩] = true := by decide

/-- C7 as amended: recovery is local at SHEET granularity only — a month
sheet that is missing or empty/all-blank is skipped and every other
sheet's records are still returned (and short label rows are padded with
nulls rather than failing) — while a malformed block with fewer than two
rows raises, is caught only by the global handler, and discards the whole
load. -/
theorem C7_sheet_level_recovery :
    (∀ (A B : List Sheet) (m : String) (g : Grid),
        gridVoid g = true → (∀ s ∈ A, s.name ≠ m) → (∀ s ∈ B, s.name ≠ m) →
        loadRecords (A ++ ⟨m, g⟩ :: B) = loadRecords (A ++ B))
    ∧ (∀ (dates : List Cell) (W : ℕ) (r : Row),
        parseBlock dates W [r] = .error ()) := by
  constructor
  · intro A B m g hvoid hA hB
    by_cases hm : m ∈ months
    · unfold loadRecords
      apply foldlM_except_ext
      intro m' hm' acc
      by_cases hmm : m' = m
      · subst hmm
        have h1 : findSheet (A ++ ⟨m', g⟩ :: B) m' = some g := by
          unfold findSheet
          rw [find?_first_hit _ ⟨m', g⟩ (by simp) A B (by intro x hx; simp [hA x hx])]
          rfl
        have h2 : findSheet (A ++ B) m' = none := by
          unfold findSheet
          rw [List.find?_eq_none.mpr]
          · rfl
          · intro x hx
            rcases List.mem_append.mp hx with h | h
            · simp [hA x h]
            · simp [hB x h]
        rw [h1, h2]
        simp [hvoid]
      · rw [findSheet_skip A B ⟨m, g⟩ m' (by simpa using Ne.symm hmm)]
    · exact loadRecords_skip_sheet A B ⟨m, g⟩ (by simpa using hm)
  · intro dates W r
    rfl

/-- Witness for the amended C7: a void "August" sheet between two other
sheets is skipped; the "Juli" records survive. -/
theorem C7_sheet_level_recovery_witness :
    (gridVoid [[none], []] = true)
    ∧ loadRecords ([] ++ ⟨"August", [[none], []]⟩ :: [⟨"Juli", gridGood⟩])
        = loadRecords ([] ++ [⟨"Juli", gridGood⟩]) :=
  ⟨by decide,
    C7_sheet_level_recovery.1 [] [⟨"Juli", gridGood⟩] "August" [[none], []]
      (by decide) (by intro s hs; cases hs) (by intro s hs; simp at hs; simp [hs])⟩

/-! ## C10: the shift categorical and the per-shift pivots -/

lemma filter_erase_null (l : List SumRec) (p : SumRec → Bool)
    (hp : ∀ r, r.schicht = none → p r = false) :
    (l.filter (fun r => r.schicht ≠ none)).filter p = l.filter p := by
  rw [List.filter_filter]
  apply List.filter_congr
  intro x _
  cases hx : x.schicht with
  | none => simp [hx, hp x hx]
  | some s => simp [hx]

lemma rowAt_mkShiftTable (rows : List SumRec) :
    ∀ (wds : List ℤ) (d : ℤ), d ∈ wds →
      rowAt (mkShiftTable rows wds) d = shiftCols.map (shiftCell rows d) := by
  intro wds
  induction wds with
  | nil => intro d hd; cases hd
  | cons x wds ih =>
      intro d hd
      unfold mkShiftTable rowAt
      simp only [List.map_cons]
      by_cases hxd : x = d
      · subst hxd
        rw [List.find?_cons_of_pos _ (by simp)]
        rfl
      · rw [List.find?_cons_of_neg _ (by simp [hxd])]
        rcases List.mem_cons.mp hd with h | h
        · exact absurd h.symm hxd
        · exact ih d h

/-- C10: a shift label whose trimmed, title-cased form is not one of
Früh/Spät/Nacht becomes null in the tidy table's categorical; null-shift
rows are silently dropped from every per-shift cell of the weekly and
daily pivots (contributing to no shift), and every per-shift table row
carries exactly the columns Früh, Spät, Nacht in that fixed order. -/
theorem C10_null_shift_excluded :
    (∀ c : Cell,
        strTitle (strTrim (cellStr c)) ∉ (["Früh", "Spät", "Nacht"] : List String) →
        shiftOfCell c = none)
    ∧ (∀ (rows : List SumRec) (d : ℤ) (s : Shift),
        shiftCell (rows.filter (fun r => r.schicht ≠ none)) d s
          = shiftCell rows d s)
    ∧ (∀ (rows : List SumRec) (d : ℤ) (s : Shift),
        shiftCell (rows.filter (fun r => r.schicht = none)) d s = 0)
    ∧ (∀ (rs : List SumRec) (t : ℤ) (s : Shift) (m : String),
        sumVal (((dailyDf rs t).filter (fun r => r.schicht ≠ none)).filter
            (fun r => r.schicht = some s ∧ r.metric = m))
          = sumVal ((dailyDf rs t).filter
              (fun r => r.schicht = some s ∧ r.metric = m)))
    ∧ (∀ (rows : List SumRec) (wds : List ℤ) (d : ℤ), d ∈ wds →
        rowAt (mkShiftTable rows wds) d
          = [shiftCell rows d .frueh, shiftCell rows d .spaet,
             shiftCell rows d .nacht]) := by
  refine ⟨?_, ?_, ?_, ?_, ?_⟩
  · intro c h
    simp only [List.mem_cons, List.not_mem_nil, or_false, not_or] at h
    obtain ⟨h1, h2, h3⟩ := h
    simp [shiftOfCell, h1, h2, h3]
  · intro rows d s
    unfold shiftCell
    apply congrArg
    apply filter_erase_null
    intro r hr
    simp [hr]
  · intro rows d s
    unfold shiftCell
    have hnil : (rows.filter (fun r => r.schicht = none)).filter
        (fun r => r.datum = some d ∧ r.schicht = some s) = [] := by
      rw [List.filter_filter]
      apply List.filter_eq_nil_iff.mpr
      intro a _
      cases ha : a.schicht <;> simp [ha]
    rw [hnil]
    rfl
  · intro rs t s m
    apply congrArg
    apply filter_erase_null
    intro r hr
    simp [hr]
  · intro rows wds d hd
    rw [rowAt_mkShiftTable rows wds d hd]
    rfl

/-- Witness for C10: the label " Tag " title-cases to "Tag", is not a
valid shift, and becomes null. -/
theorem C10_null_shift_excluded_witness :
    (strTitle (strTrim (cellStr (some (.str " Tag "))))
        ∉ (["Früh", "Spät", "Nacht"] : List String))
    ∧ shiftOfCell (some (.str " Tag ")) = none :=
  ⟨by decide, C10_null_shift_excluded.1 (some (.str " Tag ")) (by decide)⟩

/-! ## C4: the weekly window and the dense weekday index -/

lemma pyMod_weekStart_add (t i : ℤ) (h0 : 0 ≤ i) (h7 : i < 7) :
    pyMod (weekStart t + i) 7 = i := by
  simp only [pyMod, weekStart]; omega

lemma pyMod_weekStart (t : ℤ) : pyMod (weekStart t) 7 = 0 := by
  simp only [pyMod, weekStart]; omega

lemma weekStart_le (t : ℤ) : weekStart t ≤ t ∧ t ≤ weekStart t + 6 := by
  simp only [pyMod, weekStart]; omega

lemma weekdaysOf_eq (t : ℤ) :
    weekdaysOf t = [weekStart t, weekStart t + 1, weekStart t + 2,
      weekStart t + 3, weekStart t + 4] := by
  have e : ∀ i : ℤ, 0 ≤ i → i < 7 → pyMod (weekStart t + i) 7 = i :=
    fun i a b => pyMod_weekStart_add t i a b
  have h : List.range 7 = [0, 1, 2, 3, 4, 5, 6] := rfl
  unfold weekdaysOf
  rw [h]
  simp only [List.map_cons, List.map_nil, List.filter_cons, List.filter_nil]
  norm_num [e, pyMod_weekStart]

lemma mem_weekdaysOf_range {t d : ℤ} (hd : d ∈ weekdaysOf t) :
    weekStart t ≤ d ∧ d ≤ weekStart t + 6 := by
  rw [weekdaysOf_eq] at hd
  simp only [List.mem_cons, List.not_mem_nil, or_false] at hd
  rcases hd with h | h | h | h | h <;> omega

lemma aggregate_weekly_none_iff (rs : List SumRec) (t : ℤ) :
    aggregate_weekly rs t = none ↔ weeklyFiltered rs t = [] := by
  by_cases h : weeklyFiltered rs t = [] <;> simp [aggregate_weekly, h]

lemma aggregate_weekly_inv (rs : List SumRec) (t : ℤ) (res : WeeklyResult)
    (h : aggregate_weekly rs t = some res) :
    res.dates = weekdaysOf t
    ∧ res.saegen_by_day_shift = mkShiftTable (saegenRows rs t) (weekdaysOf t)
    ∧ res.total_rolls_by_group = mkGroupTable (weeklyRolls rs t) (weekdaysOf t)
    ∧ res.total_shift = mkShiftTable (weeklyRolls rs t) (weekdaysOf t)
    ∧ res.workers_per_shift = mkShiftTable (vorhandeneRows rs t) (weekdaysOf t)
    ∧ res.workers_per_day = mkDayTable (vorhandeneRows rs t) (weekdaysOf t)
    ∧ res.total_rolls_per_day = mkDayTable (weeklyRolls rs t) (weekdaysOf t)
    ∧ res.ma_by_shift = mkShiftTable (vorhandeneRows rs t) (weekdaysOf t) := by
  unfold aggregate_weekly at h
  by_cases hc : weeklyFiltered rs t = []
  · simp [hc] at h
  · simp only [if_neg hc, Option.some.injEq] at h
    rw [← h]
    exact ⟨rfl, rfl, rfl, rfl, rfl, rfl, rfl, rfl⟩

lemma mapFst_map_pair {ι α : Type} (f : ι → α) :
    ∀ l : List ι, ((l.map (fun x => (x, f x))).map Prod.fst) = l := by
  intro l
  induction l with
  | nil => rfl
  | cons x l ih => simp only [List.map_cons, ih]

lemma mapFst_mkShiftTable (rows : List SumRec) (wds : List ℤ) :
    (mkShiftTable rows wds).map Prod.fst = wds := by
  unfold mkShiftTable
  exact mapFst_map_pair _ wds

lemma mapFst_mkGroupTable (rows : List SumRec) (wds : List ℤ) :
    (mkGroupTable rows wds).map Prod.fst = wds := by
  unfold mkGroupTable
  exact mapFst_map_pair _ wds

lemma mapFst_mkDayTable (rows : List SumRec) (wds : List ℤ) :
    (mkDayTable rows wds).map Prod.fst = wds := by
  unfold mkDayTable
  exact mapFst_map_pair _ wds

lemma rowAt_map_pair (f : ℤ → List ℚ) :
    ∀ (wds : List ℤ) (d : ℤ), d ∈ wds →
      rowAt (wds.map (fun x => (x, f x))) d = f d := by
  intro wds
  induction wds with
  | nil => intro d hd; cases hd
  | cons x wds ih =>
      intro d hd
      unfold rowAt
      simp only [List.map_cons]
      by_cases hxd : x = d
      · subst hxd
        rw [List.find?_cons_of_pos _ (by simp)]
        rfl
      · rw [List.find?_cons_of_neg _ (by simp [hxd])]
        rcases List.mem_cons.mp hd with h | h
        · exact absurd h.symm hxd
        · exact ih d h

lemma valAt_map_pair (f : ℤ → ℚ) :
    ∀ (wds : List ℤ) (d : ℤ), d ∈ wds →
      valAt (wds.map (fun x => (x, f x))) d = f d := by
  intro wds
  induction wds with
  | nil => intro d hd; cases hd
  | cons x wds ih =>
      intro d hd
      unfold valAt
      simp only [List.map_cons]
      by_cases hxd : x = d
      · subst hxd
        rw [List.find?_cons_of_pos _ (by simp)]
        rfl
      · rw [List.find?_cons_of_neg _ (by simp [hxd])]
        rcases List.mem_cons.mp hd with h | h
        · exact absurd h.symm hxd
        · exact ih d h

lemma shiftCell_of_no_day (rows : List SumRec) (d : ℤ)
    (h : ∀ r ∈ rows, r.datum ≠ some d) (s : Shift) : shiftCell rows d s = 0 := by
  unfold shiftCell
  rw [List.filter_eq_nil_iff.mpr (by intro a ha; simp [h a ha])]
  rfl

lemma groupCell_of_no_day (rows : List SumRec) (d : ℤ)
    (h : ∀ r ∈ rows, r.datum ≠ some d) (g : TaskGroup) :
    groupCell rows d g = 0 := by
  unfold groupCell
  rw [List.filter_eq_nil_iff.mpr (by intro a ha; simp [h a ha])]
  rfl

lemma dayCell_of_no_day (rows : List SumRec) (d : ℤ)
    (h : ∀ r ∈ rows, r.datum ≠ some d) : dayCell rows d = 0 := by
  unfold dayCell
  rw [List.filter_eq_nil_iff.mpr (by intro a ha; simp [h a ha])]
  rfl

/-- C4: a non-empty weekly result is indexed, in every output table, over
exactly the five weekdays Monday..Friday of the calendar week containing
the target date; days without data carry all-zero rows; and the result is
empty exactly when no record's date falls on one of those weekdays. -/
theorem C4_weekly_window (rs : List SumRec) (t : ℤ) :
    (∀ res, aggregate_weekly rs t = some res →
      res.dates = [weekStart t, weekStart t + 1, weekStart t + 2,
        weekStart t + 3, weekStart t + 4]
      ∧ pyMod (weekStart t) 7 = 0
      ∧ (weekStart t ≤ t ∧ t ≤ weekStart t + 6)
      ∧ res.saegen_by_day_shift.map Prod.fst = res.dates
      ∧ res.total_rolls_by_group.map Prod.fst = res.dates
      ∧ res.total_shift.map Prod.fst = res.dates
      ∧ res.workers_per_shift.map Prod.fst = res.dates
      ∧ res.workers_per_day.map Prod.fst = res.dates
      ∧ res.total_rolls_per_day.map Prod.fst = res.dates
      ∧ res.ma_by_shift.map Prod.fst = res.dates
      ∧ (∀ d ∈ res.dates, (∀ r ∈ weeklyFiltered rs t, r.datum ≠ some d) →
          rowAt res.saegen_by_day_shift d = [0, 0, 0]
          ∧ rowAt res.total_rolls_by_group d = [0, 0, 0, 0, 0]
          ∧ rowAt res.total_shift d = [0, 0, 0]
          ∧ rowAt res.workers_per_shift d = [0, 0, 0]
          ∧ valAt res.workers_per_day d = 0
          ∧ valAt res.total_rolls_per_day d = 0
          ∧ rowAt res.ma_by_shift d = [0, 0, 0]))
    ∧ (aggregate_weekly rs t = none ↔
        ∀ r ∈ rs, ∀ d : ℤ, r.datum = some d → d ∉ weekdaysOf t) := by
  constructor
  · intro res hres
    obtain ⟨hd, h1, h2, h3, h4, h5, h6, h7⟩ := aggregate_weekly_inv rs t res hres
    refine ⟨by rw [hd, weekdaysOf_eq], pyMod_weekStart t, weekStart_le t,
      ?_, ?_, ?_, ?_, ?_, ?_, ?_, ?_⟩
    · rw [h1, hd, mapFst_mkShiftTable]
    · rw [h2, hd, mapFst_mkGroupTable]
    · rw [h3, hd, mapFst_mkShiftTable]
    · rw [h4, hd, mapFst_mkShiftTable]
    · rw [h5, hd, mapFst_mkDayTable]
    · rw [h6, hd, mapFst_mkDayTable]
    · rw [h7, hd, mapFst_mkShiftTable]
    · intro d hdm hno
      rw [hd] at hdm
      have hsub1 : ∀ r ∈ saegenRows rs t, r.datum ≠ some d :=
        fun r hr => hno r (List.mem_filter.mp hr).1
      have hsub2 : ∀ r ∈ weeklyRolls rs t, r.datum ≠ some d :=
        fun r hr => hno r (List.mem_filter.mp hr).1
      have hsub3 : ∀ r ∈ vorhandeneRows rs t, r.datum ≠ some d :=
        fun r hr => hno r (List.mem_filter.mp hr).1
      refine ⟨?_, ?_, ?_, ?_, ?_, ?_, ?_⟩
      · rw [h1, rowAt_mkShiftTable _ _ _ hdm]
        simp [shiftCols, shiftCell_of_no_day _ _ hsub1]
      · rw [h2]
        show rowAt ((weekdaysOf t).map
          (fun x => (x, TASK_ORDER.map (groupCell (weeklyRolls rs t) x)))) d = _
        rw [rowAt_map_pair _ _ _ hdm]
        simp [TASK_ORDER, groupCell_of_no_day _ _ hsub2]
      · rw [h3, rowAt_mkShiftTable _ _ _ hdm]
        simp [shiftCols, shiftCell_of_no_day _ _ hsub2]
      · rw [h4, rowAt_mkShiftTable _ _ _ hdm]
        simp [shiftCols, shiftCell_of_no_day _ _ hsub3]
      · rw [h5]
        show valAt ((weekdaysOf t).map
          (fun x => (x, dayCell (vorhandeneRows rs t) x))) d = _
        rw [valAt_map_pair _ _ _ hdm]
        exact dayCell_of_no_day _ _ hsub3
      · rw [h6]
        show valAt ((weekdaysOf t).map
          (fun x => (x, dayCell (weeklyRolls rs t) x))) d = _
        rw [valAt_map_pair _ _ _ hdm]
        exact dayCell_of_no_day _ _ hsub2
      · rw [h7, rowAt_mkShiftTable _ _ _ hdm]
        simp [shiftCols, shiftCell_of_no_day _ _ hsub3]
  · rw [aggregate_weekly_none_iff]
    unfold weeklyFiltered
    rw [List.filter_eq_nil_iff]
    constructor
    · intro h r hr d hrd hdw
      have := h r hr
      rcases mem_weekdaysOf_range hdw with ⟨ha, hb⟩
      simp [hrd, ha, hb, hdw] at this
    · intro h r hr
      cases hrd : r.datum with
      | none => simp
      | some d =>
          have := h r hr d hrd
          simp [this]

lemma option_some_getD {α : Type} (o : Option α) (d : α)
    (h : o.isSome = true) : o = some (o.getD d) := by
  cases o with
  | none => cases h
  | some a => rfl

lemma aggregate_weekly_isSome (rs : List SumRec) (t : ℤ)
    (h : weeklyFiltered rs t ≠ []) :
    (aggregate_weekly rs t).isSome = true := by
  simp [aggregate_weekly, h]

lemma resWeekW_some : aggregate_weekly rsWeekW 0 = some resWeekW :=
  option_some_getD _ _ (aggregate_weekly_isSome rsWeekW 0 (by decide))

/-- Witness for C4 at a concrete week. -/
theorem C4_weekly_window_witness :
    aggregate_weekly rsWeekW 0 = some resWeekW
    ∧ resWeekW.dates = [weekStart 0, weekStart 0 + 1, weekStart 0 + 2,
        weekStart 0 + 3, weekStart 0 + 4] :=
  ⟨resWeekW_some,
    ((C4_weekly_window rsWeekW 0).1 resWeekW resWeekW_some).1⟩

/-! ## C3: weekly group totals versus shift totals -/

lemma weekdaysOf_nodup (t : ℤ) : (weekdaysOf t).Nodup := by
  rw [weekdaysOf_eq]
  simp only [List.nodup_cons, List.mem_cons, List.not_mem_nil, or_false,
    List.nodup_nil, and_true, not_or, not_false_iff]
  omega

lemma rowTotal_map_pair (f : ℤ → List ℚ) :
    ∀ (wds : List ℤ) (d : ℤ), wds.Nodup → d ∈ wds →
      rowTotal (wds.map (fun x => (x, f x))) d = (f d).sum := by
  intro wds
  induction wds with
  | nil => intro d _ hd; cases hd
  | cons x wds ih =>
      intro d hnd hd
      unfold rowTotal
      simp only [List.map_cons, List.filter_cons]
      by_cases hxd : x = d
      · subst hxd
        rw [if_pos (by simp)]
        rw [List.filter_eq_nil_iff.mpr ?hnil]
        case hnil =>
          intro p hp
          obtain ⟨y, hy, rfl⟩ := List.mem_map.mp hp
          simp only [decide_eq_true_eq]
          exact fun he => (List.nodup_cons.mp hnd).1 (he ▸ hy)
        simp
      · rw [if_neg (by simp [hxd])]
        rcases List.mem_cons.mp hd with h | h
        · exact absurd h.symm hxd
        · exact ih d (List.nodup_cons.mp hnd).2 h

lemma task_group_covers (g : TaskGroup) : g ∈ TASK_ORDER := by
  cases g <;> decide

lemma shift_covers (s : Shift) : some s ∈ shiftCols.map some := by
  cases s <;> decide

lemma filter_and_datum (l : List SumRec) (d : ℤ) (p : SumRec → Prop)
    [DecidablePred p] :
    l.filter (fun r => r.datum = some d ∧ p r)
      = (l.filter (fun r => r.datum = some d)).filter (fun r => p r) := by
  rw [List.filter_filter]
  apply List.filter_congr
  intro x _
  by_cases h1 : x.datum = some d <;> by_cases h2 : p x <;> simp [h1, h2]

/-- C3 counterexample: a single weekday record whose shift is null: the
task-group rollup totals 5 for that day while the per-shift rollup totals
0 — the record is in the "rolls" subset but is dropped from the shift
pivot's groupby. -/
theorem C3_counterexample :
    (aggregate_weekly rsNullShift 0).map
        (fun res => (rowTotal res.total_rolls_by_group 0,
          rowTotal res.total_shift 0))
      = some (5, 0)
    ∧ (5 : ℚ) ≠ 0 := by
  constructor
  · cases h : aggregate_weekly rsNullShift 0 with
    | none =>
        rw [aggregate_weekly_none_iff] at h
        exact absurd h (by decide)
    | some res =>
        obtain ⟨hd, h1, h2, h3, h4, h5, h6, h7⟩ :=
          aggregate_weekly_inv rsNullShift 0 res h
        have hrolls : weeklyRolls rsNullShift 0 = rsNullShift := by decide
        have hwds : weekdaysOf 0 = [0, 1, 2, 3, 4] := by decide
        have hnd : (weekdaysOf 0).Nodup := weekdaysOf_nodup 0
        have hmem : (0 : ℤ) ∈ weekdaysOf 0 := by rw [hwds]; decide
        have hgrp : rowTotal res.total_rolls_by_group 0
            = (TASK_ORDER.map (groupCell rsNullShift 0)).sum := by
          rw [h2, hrolls]
          exact rowTotal_map_pair _ (weekdaysOf 0) 0 hnd hmem
        have hshf : rowTotal res.total_shift 0
            = (shiftCols.map (shiftCell rsNullShift 0)).sum := by
          rw [h3, hrolls]
          exact rowTotal_map_pair _ (weekdaysOf 0) 0 hnd hmem
        have hg1 : groupCell rsNullShift 0 .sonstige = 5 := by
          have hfil : rsNullShift.filter
              (fun r => r.datum = some 0 ∧ classify_task r.metric = TaskGroup.sonstige)
                = rsNullShift := by decide
          unfold groupCell
          rw [hfil]
          simp [sumVal, rsNullShift]
        have hg0 : ∀ g : TaskGroup, g ≠ .sonstige → groupCell rsNullShift 0 g = 0 := by
          intro g hg
          have hfil : rsNullShift.filter
              (fun r => r.datum = some 0 ∧ classify_task r.metric = g) = [] := by
            cases g <;> first | (exact absurd rfl hg) | decide
          unfold groupCell
          rw [hfil]
          rfl
        have hs0 : ∀ s : Shift, shiftCell rsNullShift 0 s = 0 := by
          intro s
          have hfil : rsNullShift.filter
              (fun r => r.datum = some 0 ∧ r.schicht = some s) = [] := by
            cases s <;> decide
          unfold shiftCell
          rw [hfil]
          rfl
        rw [Option.map_some']
        refine congrArg some (Prod.ext ?_ ?_)
        · rw [hgrp]
          simp only [TASK_ORDER, List.map_cons, List.map_nil, hg1,
            hg0 .absetzen (by decide), hg0 .richten (by decide),
            hg0 .verladen (by decide), hg0 .zusammenfahren (by decide)]
          norm_num
        · rw [hshf]
          simp only [shiftCols, List.map_cons, List.map_nil, hs0]
          norm_num
  · norm_num

/-- C3 as amended: the per-day equality between the summed task-group
rollup and the summed per-shift rollup holds for every tidy table in which
every record carries a non-null shift (records with a null shift appear in
the task-group totals but are dropped from the per-shift groupby). -/
theorem C3_group_shift_balance (rs : List SumRec) (t : ℤ)
    (res : WeeklyResult) (hres : aggregate_weekly rs t = some res)
    (hshift : ∀ r ∈ rs, r.schicht ≠ none) :
    ∀ d ∈ res.dates,
      rowTotal res.total_rolls_by_group d = rowTotal res.total_shift d := by
  obtain ⟨hd, h1, h2, h3, h4, h5, h6, h7⟩ := aggregate_weekly_inv rs t res hres
  intro d hdm
  rw [hd] at hdm
  rw [h2, h3]
  unfold mkGroupTable mkShiftTable
  rw [rowTotal_map_pair _ _ _ (weekdaysOf_nodup t) hdm,
    rowTotal_map_pair _ _ _ (weekdaysOf_nodup t) hdm]
  set rolls := weeklyRolls rs t with hrolls
  have hmem : ∀ x ∈ rolls.filter (fun r => r.datum = some d), x.schicht ≠ none := by
    intro x hx
    have hx1 : x ∈ rolls := (List.mem_filter.mp hx).1
    have hx2 : x ∈ weeklyFiltered rs t := by
      rw [hrolls] at hx1
      exact (List.mem_filter.mp hx1).1
    exact hshift x (List.mem_filter.mp hx2).1
  have hgrp : (TASK_ORDER.map (groupCell rolls d)).sum
      = ((rolls.filter (fun r => r.datum = some d)).map (·.value)).sum := by
    unfold groupCell
    have := fiber_partition (fun r : SumRec => r.value)
      (fun r => classify_task r.metric)
      (rolls.filter (fun r => r.datum = some d)) TASK_ORDER
      (by decide) (fun x _ => task_group_covers _)
    rw [← this]
    apply congrArg
    apply List.map_congr_left
    intro g _
    unfold sumVal
    rw [filter_and_datum]
  have hcov : ∀ x ∈ rolls.filter (fun r => r.datum = some d),
      (fun r : SumRec => r.schicht) x ∈ shiftCols.map some := by
    intro x hx
    cases hxs : x.schicht with
    | none => exact absurd hxs (hmem x hx)
    | some s =>
        show x.schicht ∈ shiftCols.map some
        rw [hxs]
        exact shift_covers s
  have hfib := fiber_partition (fun r : SumRec => r.value)
    (fun r => r.schicht)
    (rolls.filter (fun r => r.datum = some d)) (shiftCols.map some)
    (by decide) hcov
  have hshf : (shiftCols.map (shiftCell rolls d)).sum
      = ((rolls.filter (fun r => r.datum = some d)).map (·.value)).sum := by
    rw [← hfib, List.map_map]
    apply congrArg
    apply List.map_congr_left
    intro s _
    show shiftCell rolls d s = _
    unfold shiftCell sumVal
    rw [filter_and_datum]
    rfl
  rw [hgrp, hshf]

/-- Witness for the amended C3 at a concrete week with valid shifts. -/
theorem C3_group_shift_balance_witness :
    aggregate_weekly rsWeekW 0 = some resWeekW
    ∧ (∀ r ∈ rsWeekW, r.schicht ≠ none)
    ∧ rowTotal resWeekW.total_rolls_by_group 0
        = rowTotal resWeekW.total_shift 0 :=
  ⟨resWeekW_some, by decide,
    C3_group_shift_balance rsWeekW 0 resWeekW resWeekW_some (by decide) 0
      (by rw [(aggregate_weekly_inv rsWeekW 0 resWeekW resWeekW_some).1]; decide)⟩

/-! ## C5 / C6: the daily aggregator -/

lemma aggregate_daily_none_iff (rs : List SumRec) (ang : List AngRow) (t : ℤ) :
    aggregate_daily rs ang t = none ↔ dailyDf rs t = [] := by
  by_cases h : dailyDf rs t = [] <;> simp [aggregate_daily, h]

lemma aggregate_daily_isSome (rs : List SumRec) (ang : List AngRow) (t : ℤ)
    (h : dailyDf rs t ≠ []) : (aggregate_daily rs ang t).isSome = true := by
  simp [aggregate_daily, h]

lemma aggregate_daily_inv (rs : List SumRec) (ang : List AngRow) (t : ℤ)
    (res : DailyResult) (h : aggregate_daily rs ang t = some res) :
    res.merged = shift_task_merged rs ang t
    ∧ res.taskRows = keptPretties (dailyTasks rs ang t)
    ∧ res.hours_pivot = (keptPretties (dailyTasks rs ang t)).map
        (fun p => (p, shiftCols.map (hoursCell (tasksKept (dailyTasks rs ang t)) p)))
    ∧ res.rolls_pivot = (keptPretties (dailyTasks rs ang t)).map
        (fun p => (p, shiftCols.map (rollsCell (tasksKept (dailyTasks rs ang t)) p))) := by
  unfold aggregate_daily at h
  by_cases hc : dailyDf rs t = []
  · simp [hc] at h
  · simp only [if_neg hc, Option.some.injEq] at h
    rw [← h]
    exact ⟨rfl, rfl, rfl, rfl⟩

lemma resDayW_some : aggregate_daily rsDayW angDayW 0 = some resDayW :=
  option_some_getD _ _ (aggregate_daily_isSome rsDayW angDayW 0 (by decide))

lemma resDayC6_some : aggregate_daily rsDayC6 angDayW 0 = some resDayC6 :=
  option_some_getD _ _ (aggregate_daily_isSome rsDayC6 angDayW 0 (by decide))

lemma mergeRow_fields (s : Shift) (m : String) (v : ℚ) (mn : Option ℚ) :
    (mergeRow s m v mn).schicht = s
    ∧ (mergeRow s m v mn).metric = m
    ∧ (mergeRow s m v mn).minutes = mn :=
  ⟨rfl, rfl, rfl⟩

lemma mergeRow_sonst (s : Shift) (m : String) (v : ℚ) (mn : Option ℚ)
    (h : lp m = SONSTIGES) :
    (mergeRow s m v mn).value = 0 ∧ (mergeRow s m v mn).hours = some v
    ∧ (mergeRow s m v mn).pretty = "Sonstiges" := by
  refine ⟨?_, ?_, ?_⟩ <;> simp [mergeRow, h]

lemma mergeRow_plain (s : Shift) (m : String) (v : ℚ) (mn : Option ℚ)
    (h : ¬ lp m = SONSTIGES) :
    (mergeRow s m v mn).value = v
    ∧ (mergeRow s m v mn).hours = mn.map (fun c => v * c / 60)
    ∧ (mergeRow s m v mn).pretty = strTitle m := by
  refine ⟨?_, ?_, ?_⟩ <;> simp [mergeRow, h]

lemma mergeRow_fte (s : Shift) (m : String) (v : ℚ) (mn : Option ℚ) :
    (mergeRow s m v mn).fte = (mn.map (fun c => v * c / 60)).map (· / 7.5) :=
  rfl

lemma shift_task_rolls_shape (rs : List SumRec) (t : ℤ) :
    ∀ rr ∈ shift_task_rolls rs t,
      rr.metric ∈ dailyMetrics rs t
      ∧ rr.value = sumVal ((dailyDf rs t).filter
          (fun r => r.schicht = some rr.schicht ∧ r.metric = rr.metric)) := by
  intro rr h
  unfold shift_task_rolls at h
  obtain ⟨s, _, h2⟩ := List.mem_flatMap.mp h
  obtain ⟨m, hm, rfl⟩ := List.mem_map.mp h2
  exact ⟨hm, rfl⟩

lemma shift_task_merged_shape (rs : List SumRec) (ang : List AngRow) (t : ℤ) :
    ∀ mr ∈ shift_task_merged rs ang t, ∃ rr ∈ shift_task_rolls rs t,
      (ang.filter (fun a => a.1 = rr.metric) = []
          ∧ mr = mergeRow rr.schicht rr.metric rr.value none)
      ∨ (∃ a ∈ ang.filter (fun a => a.1 = rr.metric),
          mr = mergeRow rr.schicht rr.metric rr.value a.2) := by
  intro mr hmr
  unfold shift_task_merged at hmr
  obtain ⟨rr, hrr, hmem⟩ := List.mem_flatMap.mp hmr
  refine ⟨rr, hrr, ?_⟩
  by_cases hh : ang.filter (fun a => a.1 = rr.metric) = []
  · left
    rw [if_pos hh] at hmem
    exact ⟨hh, (List.mem_singleton.mp hmem).symm ▸ rfl⟩
  · right
    rw [if_neg hh] at hmem
    obtain ⟨a, ha, rfl⟩ := List.mem_map.mp hmem
    exact ⟨a, ha, rfl⟩

lemma sum_map_filter_eq_zero {α : Type} (f : α → ℚ) (q : α → Bool)
    (l : List α) (h : ∀ x ∈ l, q x = true → f x = 0) :
    ((l.filter q).map f).sum = 0 := by
  apply List.sum_eq_zero
  intro y hy
  obtain ⟨x, hx, rfl⟩ := List.mem_map.mp hy
  exact h x (List.mem_filter.mp hx).1 (List.mem_filter.mp hx).2

lemma mem_keptPretties (l : List MergedRow) (p : String) :
    p ∈ keptPretties l ↔
      p ∈ l.map (·.pretty) ∧ (vsumOf l p ≠ 0 ∨ hsumOf l p ≠ 0) := by
  unfold keptPretties
  rw [List.mem_filter]
  simp [List.mem_dedup]

lemma filter_swap {α : Type} (p q : α → Bool) (l : List α) :
    (l.filter p).filter q = (l.filter q).filter p := by
  rw [List.filter_filter, List.filter_filter]
  apply List.filter_congr
  intro x _
  rw [Bool.and_comm]

/-- C5 counterexample: on a day where the hours-only Sonstiges metric is
present with value 0 (and another task has nonzero units), "Sonstiges"
does NOT appear as a pivot row — it is dropped like any other all-zero
task, contradicting "always retained whenever present". -/
theorem C5_counterexample :
    SONSTIGES ∈ (dailyDf rsDayW 0).map (·.metric)
    ∧ (aggregate_daily rsDayW angDayW 0).isSome = true
    ∧ "Sonstiges" ∉ resDayW.taskRows := by
  refine ⟨by decide, by rw [resDayW_some]; rfl, ?_⟩
  have hinv := aggregate_daily_inv rsDayW angDayW 0 resDayW resDayW_some
  rw [hinv.2.1, mem_keptPretties]
  rintro ⟨hmem, hne⟩
  have hrow : ∀ mr ∈ dailyTasks rsDayW angDayW 0, mr.pretty = "Sonstiges" →
      mr.value = 0 ∧ mr.hours.getD 0 = 0 := by
    intro mr hmr hp
    have hmr' : mr ∈ shift_task_merged rsDayW angDayW 0 :=
      (List.mem_filter.mp hmr).1
    obtain ⟨rr, hrr, hcase⟩ := shift_task_merged_shape _ _ _ mr hmr'
    obtain ⟨hmmet, hval⟩ := shift_task_rolls_shape _ _ rr hrr
    have hmet2 : rr.metric = SONSTIGES ∨ rr.metric = "alpha" := by
      have hdm : dailyMetrics rsDayW 0 = [SONSTIGES, "alpha"] := by decide
      rw [hdm] at hmmet
      simpa using hmmet
    obtain ⟨mn, hmr_eq⟩ : ∃ mn, mr = mergeRow rr.schicht rr.metric rr.value mn := by
      rcases hcase with ⟨_, he⟩ | ⟨a, _, he⟩
      exacts [⟨none, he⟩, ⟨a.2, he⟩]
    rcases hmet2 with hs | ha
    · have hsonst : lp rr.metric = SONSTIGES := by rw [hs]; decide
      obtain ⟨hv0, hh, _⟩ := mergeRow_sonst rr.schicht rr.metric rr.value mn hsonst
      have hval0 : rr.value = 0 := by
        rw [hval]
        unfold sumVal
        apply sum_map_filter_eq_zero
        intro x hx hq
        have hxmet : x.metric = rr.metric := by
          simp only [decide_eq_true_eq] at hq
          exact hq.2
        have hall : ∀ x ∈ dailyDf rsDayW 0, x.metric = SONSTIGES →
            x.value = 0 := by decide
        exact hall x hx (by rw [hxmet, hs])
      rw [hmr_eq]
      exact ⟨hv0, by rw [hh]; simp [hval0]⟩
    · have hns : ¬ lp rr.metric = SONSTIGES := by rw [ha]; decide
      obtain ⟨_, _, hp'⟩ := mergeRow_plain rr.schicht rr.metric rr.value mn hns
      rw [hmr_eq, hp', ha] at hp
      exact absurd hp (by decide)
  have hv : vsumOf (dailyTasks rsDayW angDayW 0) "Sonstiges" = 0 := by
    unfold vsumOf
    apply sum_map_filter_eq_zero
    intro x hx hq
    exact (hrow x hx (by simpa using hq)).1
  have hh : hsumOf (dailyTasks rsDayW angDayW 0) "Sonstiges" = 0 := by
    unfold hsumOf
    apply sum_map_filter_eq_zero
    intro x hx hq
    exact (hrow x hx (by simpa using hq)).2
  rcases hne with h | h
  · exact h hv
  · exact h hh

/-- C5 as amended: both daily pivots have exactly one row per retained
Pretty label, and a label is retained iff it occurs among the day's task
rows AND its unit-count total or its Hours total is nonzero — with the
Sonstiges pseudo-task treated like any other task after its unit count is
zeroed and its raw value moved into Hours (so an all-zero Sonstiges is
dropped, not retained). -/
theorem C5_task_rows (rs : List SumRec) (ang : List AngRow) (t : ℤ)
    (res : DailyResult) (h : aggregate_daily rs ang t = some res) :
    res.hours_pivot.map Prod.fst = res.taskRows
    ∧ res.rolls_pivot.map Prod.fst = res.taskRows
    ∧ ∀ p : String, p ∈ res.taskRows ↔
        (p ∈ (dailyTasks rs ang t).map (·.pretty)
          ∧ (vsumOf (dailyTasks rs ang t) p ≠ 0
            ∨ hsumOf (dailyTasks rs ang t) p ≠ 0)) := by
  obtain ⟨h1, h2, h3, h4⟩ := aggregate_daily_inv rs ang t res h
  refine ⟨?_, ?_, ?_⟩
  · rw [h3, h2, mapFst_map_pair]
  · rw [h4, h2, mapFst_map_pair]
  · intro p
    rw [h2, mem_keptPretties]

/-- Witness for the amended C5 at the concrete day. -/
theorem C5_task_rows_witness :
    aggregate_daily rsDayW angDayW 0 = some resDayW
    ∧ resDayW.hours_pivot.map Prod.fst = resDayW.taskRows :=
  ⟨resDayW_some, (C5_task_rows rsDayW angDayW 0 resDayW resDayW_some).1⟩

/-- C6: the coefficient join is a left join — a task with no Angaben entry
keeps its shift×metric rows (with NaN minutes); such a row has NaN Hours
and NaN FTE, which every pivot sum treats as 0, so it contributes exactly
0 hours (and 0 FTE) to every shift; a matched task's row gets
Hours = units × minutesPerUnit / 60 and FTE = Hours / 7.5. -/
theorem C6_left_join_zero (rs : List SumRec) (ang : List AngRow) (t : ℤ)
    (res : DailyResult) (h : aggregate_daily rs ang t = some res) :
    (∀ rr ∈ shift_task_rolls rs t, ∃ mr ∈ res.merged,
        mr.schicht = rr.schicht ∧ mr.metric = rr.metric)
    ∧ (∀ mr ∈ res.merged, ang.filter (fun a => a.1 = mr.metric) = [] →
        mr.minutes = none)
    ∧ (∀ mr ∈ res.merged, mr.minutes = none → lp mr.metric ≠ SONSTIGES →
        mr.hours = none ∧ mr.fte = none
          ∧ mr.hours.getD 0 = 0 ∧ mr.fte.getD 0 = 0)
    ∧ (∀ (p : String) (s : Shift),
        hoursCell (tasksKept (dailyTasks rs ang t)) p s
          = hoursCell ((tasksKept (dailyTasks rs ang t)).filter
              (fun r => r.hours ≠ none)) p s)
    ∧ (∀ mr ∈ res.merged, lp mr.metric ≠ SONSTIGES → ∀ c : ℚ,
        mr.minutes = some c →
        mr.hours = some (mr.value * c / 60)
          ∧ mr.fte = some (mr.value * c / 60 / 7.5)) := by
  have h1 := (aggregate_daily_inv rs ang t res h).1
  refine ⟨?_, ?_, ?_, ?_, ?_⟩
  · intro rr hrr
    rw [h1]
    by_cases hh : ang.filter (fun a => a.1 = rr.metric) = []
    · exact ⟨mergeRow rr.schicht rr.metric rr.value none,
        List.mem_flatMap.mpr ⟨rr, hrr, by
          rw [if_pos hh]; exact List.mem_singleton.mpr rfl⟩, rfl, rfl⟩
    · obtain ⟨a, ha⟩ := List.exists_mem_of_ne_nil _ hh
      exact ⟨mergeRow rr.schicht rr.metric rr.value a.2,
        List.mem_flatMap.mpr ⟨rr, hrr, by
          rw [if_neg hh]; exact List.mem_map.mpr ⟨a, ha, rfl⟩⟩, rfl, rfl⟩
  · intro mr hmr hfil
    rw [h1] at hmr
    obtain ⟨rr, hrr, hcase⟩ := shift_task_merged_shape _ _ _ mr hmr
    rcases hcase with ⟨_, he⟩ | ⟨a, ha, he⟩
    · rw [he]
      rfl
    · rw [he] at hfil
      have : a ∈ ang.filter (fun x => x.1 = rr.metric) := ha
      rw [show (mergeRow rr.schicht rr.metric rr.value a.2).metric = rr.metric
        from rfl] at hfil
      rw [hfil] at this
      cases this
  · intro mr hmr hmin hns
    rw [h1] at hmr
    obtain ⟨rr, hrr, hcase⟩ := shift_task_merged_shape _ _ _ mr hmr
    obtain ⟨mn, he⟩ : ∃ mn, mr = mergeRow rr.schicht rr.metric rr.value mn := by
      rcases hcase with ⟨_, he⟩ | ⟨a, _, he⟩
      exacts [⟨none, he⟩, ⟨a.2, he⟩]
    have hmn : mn = none := by rw [he] at hmin; exact hmin
    subst hmn
    have hns' : ¬ lp rr.metric = SONSTIGES := by
      rw [he] at hns
      exact hns
    obtain ⟨_, hhours, _⟩ := mergeRow_plain rr.schicht rr.metric rr.value none hns'
    have hfte := mergeRow_fte rr.schicht rr.metric rr.value none
    rw [he, hhours, hfte]
    exact ⟨rfl, rfl, rfl, rfl⟩
  · intro p s
    unfold hoursCell
    rw [filter_swap]
    symm
    apply sum_map_filter_of_zero
    intro x _ hk
    have : x.hours = none := by simpa using hk
    simp [this]
  · intro mr hmr hns c hc
    rw [h1] at hmr
    obtain ⟨rr, hrr, hcase⟩ := shift_task_merged_shape _ _ _ mr hmr
    obtain ⟨mn, he⟩ : ∃ mn, mr = mergeRow rr.schicht rr.metric rr.value mn := by
      rcases hcase with ⟨_, he⟩ | ⟨a, _, he⟩
      exacts [⟨none, he⟩, ⟨a.2, he⟩]
    have hmn : mn = some c := by rw [he] at hc; exact hc
    subst hmn
    have hns' : ¬ lp rr.metric = SONSTIGES := by rw [he] at hns; exact hns
    obtain ⟨hval, hhours, _⟩ := mergeRow_plain rr.schicht rr.metric rr.value
      (some c) hns'
    have hfte := mergeRow_fte rr.schicht rr.metric rr.value (some c)
    rw [he, hhours, hfte, hval]
    exact ⟨rfl, rfl⟩

/-- Witness for C6 at the concrete day: hypothesis satisfied, and dropping
NaN-hours rows does not change a hours-pivot cell. -/
theorem C6_left_join_zero_witness :
    aggregate_daily rsDayC6 angDayW 0 = some resDayC6
    ∧ hoursCell (tasksKept (dailyTasks rsDayC6 angDayW 0)) "Beta" .frueh
        = hoursCell ((tasksKept (dailyTasks rsDayC6 angDayW 0)).filter
            (fun r => r.hours ≠ none)) "Beta" .frueh :=
  ⟨resDayC6_some,
    (C6_left_join_zero rsDayC6 angDayW 0 resDayC6 resDayC6_some).2.2.2.1
      "Beta" .frueh⟩

end Lager
